import Mathlib

/-!
Verification of the availability accounting engine in src/server.js.

The JavaScript source is shallowly embedded: timestamps are modelled by
their parse result (an Option Int holding epoch milliseconds, none for a
string on which Date parsing yields NaN), JS numbers in the accounting
paths are integers, and the mutable module-level stats value is passed
explicitly. File writes are modelled by returning the list of records the
file would contain.
-/

/-- Model of a JS value appearing in the power field of a reading: the
classifier distinguishes booleans, numbers and strings, and treats every
other type (null, undefined, objects, arrays) uniformly. -/
inductive JsValue where
  | bool (b : Bool)
  | num (n : Int)
  | str (s : String)
  | nullV
  | undef
  | obj
  | arr
deriving DecidableEq, Repr

/-- Model of a reading record from readings.jsonl. The timestamp field
models new Date(r.timestamp).getTime(): some t when the string parses to
epoch milliseconds t, none when parsing yields NaN. The rest field stands
for all further fields of the JSON record, carried through untouched. -/
structure Reading where
  power : JsValue
  timestamp : Option Int
  rest : String := ""
deriving DecidableEq, Repr

/-- Model of the module-level stats object (src/server.js lines 20-25).
last_timestamp holds the parse result of the stored ISO string; in every
state the code produces, a stored string is nonempty and parseable, so
some t models a truthy stored string and none models null. -/
structure CumulativeStats where
  total_online_ms : Int
  total_offline_ms : Int
  last_status : Option Bool
  last_timestamp : Option Int
deriving DecidableEq, Repr

/-- Model of resetStats (src/server.js lines 27-32). -/
def resetStats : CumulativeStats :=
  { total_online_ms := 0
    total_offline_ms := 0
    last_status := none
    last_timestamp := none }

/-- Model of the segment object passed to appendStatsSegment on a status
change (src/server.js lines 233-238): status is the string written by the
code, start_at and end_at are the parse results of the two ISO strings. -/
structure StateSegment where
  status : String
  start_at : Int
  end_at : Int
  duration_ms : Int
deriving DecidableEq, Repr

/-- ASCII model of the JS String.prototype.toLowerCase applied per
character: uppercase basic-latin letters are shifted by 32, every other
character is unchanged. -/
def jsCharLower (c : Char) : Char :=
  if 65 ≤ c.toNat ∧ c.toNat ≤ 90 then Char.ofNat (c.toNat + 32) else c

/-- Model of JS String.prototype.toLowerCase, mapping jsCharLower over the
characters of the string. -/
def jsToLowerCase (s : String) : String :=
  String.mk (s.data.map jsCharLower)

/-- Model of computeOnline (src/server.js lines 51-58): boolean power is
returned as is, a number is online iff nonzero, a string is online iff it
equals on after trimming and lowercasing or equals 1 after trimming, and
every other type is offline. String.trim models the JS trim call. -/
def computeOnline (reading : Reading) : Bool :=
  match reading.power with
  | .bool b => b
  | .num n => n != 0
  | .str s => jsToLowerCase s.trim == "on" || s.trim == "1"
  | _ => false

/-- Classifier rule as worded by the spec (section 4.1): for strings, true
iff the value after trimming whitespace and lowercasing equals on or 1.
Written from the words of the spec, to be compared with computeOnline. -/
def specClassifier (p : JsValue) : Bool :=
  match p with
  | .bool b => b
  | .num n => n != 0
  | .str s => jsToLowerCase s.trim == "on" || jsToLowerCase s.trim == "1"
  | _ => false

/-- Model of the state-machine core of appendReading (src/server.js lines
212-246) at stamping time t: the stamped reading carries timestamp t, the
stats update and the optional emitted segment are returned. The check on
line 222 (last_status !== null && last_timestamp) is the match on both
option fields. -/
def appendReading (stats : CumulativeStats) (reading : Reading) (t : Int) :
    CumulativeStats × Option StateSegment :=
  let stamped : Reading := { reading with timestamp := some t }
  let online := computeOnline stamped
  match stats.last_status, stats.last_timestamp with
  | some lastStatus, some lastMs =>
    let delta := max 0 (t - lastMs)
    let stats1 :=
      if lastStatus then
        { stats with total_online_ms := stats.total_online_ms + delta }
      else
        { stats with total_offline_ms := stats.total_offline_ms + delta }
    let seg :=
      if online ≠ lastStatus ∧ 0 < delta then
        some { status := if lastStatus then "online" else "offline"
               start_at := lastMs
               end_at := t
               duration_ms := delta }
      else none
    ({ stats1 with last_status := some online, last_timestamp := some t }, seg)
  | _, _ =>
    ({ stats with last_status := some online, last_timestamp := some t }, none)

/-- Model of the loop body of recomputeStats (src/server.js lines 82-99):
a reading whose timestamp fails to parse is skipped, otherwise the elapsed
delta is attributed to the previous status and the last fields are set. -/
def replayStep (nextStats : CumulativeStats) (reading : Reading) :
    CumulativeStats :=
  match reading.timestamp with
  | none => nextStats
  | some tsMs =>
    let online := computeOnline reading
    let stats1 :=
      match nextStats.last_status, nextStats.last_timestamp with
      | some lastStatus, some lastMs =>
        let delta := max 0 (tsMs - lastMs)
        if lastStatus then
          { nextStats with total_online_ms := nextStats.total_online_ms + delta }
        else
          { nextStats with total_offline_ms := nextStats.total_offline_ms + delta }
      | _, _ => nextStats
    { stats1 with last_status := some online, last_timestamp := some tsMs }

/-- Model of the sort comparator on src/server.js lines 76-80: the JS sort
keeps a before b when the comparator value ta - tb is not positive, and a
NaN comparator value (an unparseable timestamp on either side) is treated
as a tie by the engine. -/
def jsLe (a b : Reading) : Bool :=
  match a.timestamp, b.timestamp with
  | some ta, some tb => decide (ta ≤ tb)
  | _, _ => true

/-- Proof auxiliary, not from the source: a total transitive comparator
that agrees with jsLe on readings whose timestamps parse. -/
def jsLeTotal (a b : Reading) : Bool :=
  decide (a.timestamp.getD 0 ≤ b.timestamp.getD 0)

/-- Model of the defensive stable sort in recomputeStats (src/server.js
lines 76-80): since ES2019 an array sort with a consistent comparator is
the stable sort by that comparator. -/
def jsSortReadings (readings : List Reading) : List Reading :=
  readings.mergeSort jsLe

/-- Model of recomputeStats (src/server.js lines 74-102): reset, sort the
readings by parsed timestamp, then replay the loop body over the sorted
order. -/
def recomputeStats (readings : List Reading) : CumulativeStats :=
  (jsSortReadings readings).foldl replayStep resetStats

/-- Fold glue for the replay-equivalence claim: the incremental update
step of appendReading applied at the timestamp each reading carries (a
reading with an unparseable timestamp leaves the state unchanged; the
claim only concerns sequences where every timestamp parses). -/
def applyStepFold (stats : CumulativeStats) (reading : Reading) :
    CumulativeStats :=
  match reading.timestamp with
  | some t => (appendReading stats reading t).1
  | none => stats

/-- Model of a line of uptime_stats.jsonl as read back by the pruner:
snapshot_at is the parse result of the recorded snapshot string (none when
the field is missing, falsy, or unparseable, all of which the code drops),
and rest stands for all further fields, carried through untouched. -/
structure StatsLogEntry where
  snapshot_at : Option Int
  rest : String := ""
deriving DecidableEq, Repr

/-- Model of the filtering pass of pruneOldReadings (src/server.js lines
148-159) at a given cutoff: a line is none when JSON.parse throws (the
line is skipped), otherwise the parsed record is kept exactly when its
timestamp parses and is at least the cutoff. -/
def keptReadings (cutoff : Int) (lines : List (Option Reading)) :
    List Reading :=
  lines.filterMap (fun line =>
    match line with
    | none => none
    | some obj =>
      match obj.timestamp with
      | none => none
      | some tsMs => if cutoff ≤ tsMs then some obj else none)

/-- Model of pruneOldReadings (src/server.js lines 137-170): the first
component is the list of records the rewritten file contains, the second
is the stats value installed afterwards (reset when nothing is kept, the
recompute of the kept records otherwise). -/
def pruneOldReadings (cutoff : Int) (lines : List (Option Reading)) :
    List Reading × CumulativeStats :=
  let kept := keptReadings cutoff lines
  if kept = [] then ([], resetStats)
  else (kept, recomputeStats kept)

/-- Model of the filtering pass of pruneOldStatsLog (src/server.js lines
114-126): a line is kept exactly when it parses and its snapshot_at field
is present, parseable and at least the cutoff. -/
def pruneOldStatsLog (cutoff : Int) (lines : List (Option StatsLogEntry)) :
    List StatsLogEntry :=
  lines.filterMap (fun line =>
    match line with
    | none => none
    | some obj =>
      match obj.snapshot_at with
      | none => none
      | some tsMs => if cutoff ≤ tsMs then some obj else none)

/-- Retention predicate from the spec wording for readings: the record is
within the window iff its retention-relevant timestamp parses and is at
least the cutoff. -/
def readingKeep (cutoff : Int) (r : Reading) : Bool :=
  match r.timestamp with
  | some tsMs => decide (cutoff ≤ tsMs)
  | none => false

/-- Retention predicate from the spec wording for segment entries, keyed
by snapshot_at. -/
def statsEntryKeep (cutoff : Int) (e : StatsLogEntry) : Bool :=
  match e.snapshot_at with
  | some tsMs => decide (cutoff ≤ tsMs)
  | none => false

/-- Model of the brace scan on src/server.js lines 295-305: walk the
buffer keeping a nesting depth, and report the index of the first closing
brace at which the depth returns to zero, or none when the frame is still
open. The depth updates and the end test mirror the loop body exactly. -/
def findFrameEnd : List Char → Int → Nat → Option Nat
  | [], _, _ => none
  | c :: restChars, depth, i =>
    let d1 := if c == '\x7b' then depth + 1 else depth
    let d2 := if c == '\x7d' then d1 - 1 else d1
    if d2 == 0 && c == '\x7d' then some i
    else findFrameEnd restChars d2 (i + 1)

/-- Model of the while loop of flushBuffer (src/server.js lines 287-319)
on the character list of the buffer, returning the remaining buffer and
the extracted candidate frames in order. The fuel argument bounds the
number of loop iterations; one more than the buffer length always
suffices because every extracted candidate consumes at least one
character. -/
def flushLoop : Nat → List Char → List Char × List (List Char)
  | 0, buffer => (buffer, [])
  | fuel + 1, buffer =>
    match buffer.findIdx? (fun c => c == '\x7b') with
    | none => ([], [])
    | some start =>
      let b := buffer.drop start
      match findFrameEnd b 0 0 with
      | none => (b, [])
      | some e =>
        let candidate := b.take (e + 1)
        let restBuf := b.drop (e + 1)
        let result := flushLoop fuel restBuf
        (result.1, candidate :: result.2)

/-- Model of flushBuffer (src/server.js lines 286-320) as a pure function
from the accumulated buffer to the leftover buffer and the candidate
frames handed to JSON.parse, in order. -/
def flushBuffer (buffer : String) : String × List String :=
  let result := flushLoop (buffer.length + 1) buffer.data
  (String.mk result.1, result.2.map String.mk)

/-- Digits-to-number helper for the restricted JSON model. -/
def digitsToNat (ds : List Char) : Nat :=
  ds.foldl (fun n c => n * 10 + (c.toNat - 48)) 0

/-- Modelled from the spec: JSON.parse is a platform builtin, restricted
here to the fragment exercised by the hardware-link frames of the spec,
namely a flat object with one double-quoted key and one nonnegative
integer value and no interior whitespace. Every other input counts as a
parse failure (none), matching the catch branch that skips the frame. -/
def parseFlatObj (s : String) : Option (String × Nat) :=
  match s.data with
  | '\x7b' :: '\"' :: restChars =>
    let key := restChars.takeWhile (fun c => !(c == '\"'))
    (match restChars.drop key.length with
     | '\"' :: ':' :: restChars2 =>
       let ds := restChars2.takeWhile Char.isDigit
       if ds.isEmpty then none
       else
         match restChars2.drop ds.length with
         | ['\x7d'] => some (String.mk key, digitsToNat ds)
         | _ => none
     | _ => none)
  | _ => none

/-- First chunk of the frame-extractor test stream from the spec. -/
def serialChunk1 : String := "garbage\x7b\"power\":1\x7d\x7b\"pow"

/-- Second chunk of the frame-extractor test stream from the spec. -/
def serialChunk2 : String := "er\":0"

/-- Concrete sorted reading sequence used to witness the replay
equivalence: offline at 0, online at 5000, offline at 15000. -/
def demoReadings : List Reading :=
  [{ power := .num 0, timestamp := some 0 },
   { power := .num 1, timestamp := some 5000 },
   { power := .num 0, timestamp := some 15000 }]

/-- Concrete unsorted permutation of the demo reading set, used to
witness sort-independence. -/
def demoPerm : List Reading :=
  [{ power := .num 0, timestamp := some 15000 },
   { power := .num 0, timestamp := some 0 },
   { power := .num 1, timestamp := some 5000 }]

/-- Concrete stats state with both last fields set, used to witness the
step theorems. -/
def demoStats : CumulativeStats :=
  { total_online_ms := 0
    total_offline_ms := 0
    last_status := some false
    last_timestamp := some 0 }

/-- Concrete reading used to witness the step theorems. -/
def demoReading : Reading :=
  { power := .num 1, timestamp := none }

/-- States reachable from startup through the operations of the engine:
the initial empty stats, an incremental appendReading update, a full
recomputeStats replacement (startup load or post-prune rebuild), a run of
the readings-log pruner, and the reset assignment. -/
inductive ReachableStats : CumulativeStats → Prop where
  | startup : ReachableStats resetStats
  | applyStep (s : CumulativeStats) (r : Reading) (t : Int) :
      ReachableStats s → ReachableStats (appendReading s r t).1
  | recomputeRun (l : List Reading) : ReachableStats (recomputeStats l)
  | pruneRun (cutoff : Int) (lines : List (Option Reading)) :
      ReachableStats (pruneOldReadings cutoff lines).2
  | resetRun : ReachableStats resetStats

theorem charOfNat_toNat {n : Nat} (h : n < 55296) : (Char.ofNat n).toNat = n := by
  rw [Char.ofNat, dif_pos (Or.inl h)]
  simp [Char.ofNatAux, Char.toNat, UInt32.toNat]

theorem jsCharLower_eq_one_iff (c : Char) : jsCharLower c = '1' ↔ c = '1' := by
  unfold jsCharLower
  split
  · rename_i h
    constructor
    · intro hc
      have := congrArg Char.toNat hc
      rw [charOfNat_toNat (by omega)] at this
      have h1 : ('1' : Char).toNat = 49 := rfl
      omega
    · intro hc
      subst hc
      simp at h
  · exact Iff.rfl

theorem map_jsCharLower_eq_one (l : List Char) :
    l.map jsCharLower = ['1'] ↔ l = ['1'] := by
  match l with
  | [] => simp
  | [c] => simp [jsCharLower_eq_one_iff]
  | c :: c2 :: tl => simp

theorem jsToLowerCase_eq_one_iff (s : String) :
    jsToLowerCase s = "1" ↔ s = "1" := by
  rw [jsToLowerCase, String.ext_iff, String.ext_iff]
  exact map_jsCharLower_eq_one s.data

/-- C7: the classifier is a total Lean function on every possible power
value, and on each variant it computes the rule the spec states: a boolean
is returned as is, a number is online iff nonzero, a string is online iff
after trimming and lowercasing it equals on or 1, and every other type
(null, undefined, objects, arrays, missing field) is offline. -/
theorem computeOnline_matches_spec_rule (r : Reading) :
    computeOnline r = specClassifier r.power := by
  cases hp : r.power with
  | str s =>
    have h12 : (s.trim == "1") = (jsToLowerCase s.trim == "1") := by
      rcases Decidable.em (s.trim = "1") with h | h
      · rw [h]
        decide
      · have h2 : ¬ jsToLowerCase s.trim = "1" :=
          fun hc => h ((jsToLowerCase_eq_one_iff s.trim).mp hc)
        simp [h, h2]
    simp [computeOnline, specClassifier, hp, h12]
  | bool b => simp [computeOnline, specClassifier, hp]
  | num n => simp [computeOnline, specClassifier, hp]
  | nullV => simp [computeOnline, specClassifier, hp]
  | undef => simp [computeOnline, specClassifier, hp]
  | obj => simp [computeOnline, specClassifier, hp]
  | arr => simp [computeOnline, specClassifier, hp]

/-- C2: when the previous state is set, the step of appendReading adds
delta = max 0 (t - last_timestamp) to the total matching the previous
status and leaves the other total unchanged, and it emits exactly one
segment for the previous status covering the interval from last_timestamp
to t with duration delta if and only if the new status differs from the
previous one and delta is positive; otherwise no segment is emitted. -/
theorem appendReading_step_behavior (s : CumulativeStats) (r : Reading)
    (t lt : Int) (ls : Bool)
    (hs : s.last_status = some ls) (ht : s.last_timestamp = some lt) :
    (appendReading s r t).1.total_online_ms
        = s.total_online_ms + (if ls then max 0 (t - lt) else 0)
    ∧ (appendReading s r t).1.total_offline_ms
        = s.total_offline_ms + (if ls then 0 else max 0 (t - lt))
    ∧ (appendReading s r t).2
        = (if computeOnline { r with timestamp := some t } ≠ ls
              ∧ 0 < max 0 (t - lt)
           then some { status := if ls then "online" else "offline"
                       start_at := lt
                       end_at := t
                       duration_ms := max 0 (t - lt) }
           else none) := by
  unfold appendReading
  rw [hs, ht]
  cases ls <;> simp

/-- Witness for C2: a set offline state at time 0 and an online reading at
time 5000 emit the offline segment covering 0 to 5000. -/
theorem appendReading_step_behavior_witness :
    demoStats.last_status = some false
    ∧ demoStats.last_timestamp = some 0
    ∧ (appendReading demoStats demoReading 5000).2
        = (if computeOnline { demoReading with timestamp := some 5000 } ≠ false
              ∧ 0 < max 0 ((5000 : Int) - 0)
           then some { status := if false then "online" else "offline"
                       start_at := 0
                       end_at := 5000
                       duration_ms := max 0 ((5000 : Int) - 0) }
           else none) :=
  ⟨rfl, rfl,
    (appendReading_step_behavior demoStats demoReading 5000 0 false rfl rfl).2.2⟩

/-- C10: one appendReading step changes at most one of the two totals,
each total only grows (the added delta is nonnegative), and when the prior
state is unset both totals are left unchanged. -/
theorem appendReading_frame_effect (s : CumulativeStats) (r : Reading)
    (t : Int) :
    ((appendReading s r t).1.total_online_ms = s.total_online_ms
        ∨ (appendReading s r t).1.total_offline_ms = s.total_offline_ms)
    ∧ s.total_online_ms ≤ (appendReading s r t).1.total_online_ms
    ∧ s.total_offline_ms ≤ (appendReading s r t).1.total_offline_ms
    ∧ ((s.last_status = none ∨ s.last_timestamp = none) →
        (appendReading s r t).1.total_online_ms = s.total_online_ms
        ∧ (appendReading s r t).1.total_offline_ms = s.total_offline_ms) := by
  unfold appendReading
  cases hs : s.last_status with
  | none => simp
  | some ls =>
    cases ht : s.last_timestamp with
    | none => simp
    | some lt =>
      have hd : (0 : Int) ≤ max 0 (t - lt) := le_max_left 0 (t - lt)
      cases ls with
      | false =>
        refine ⟨Or.inl ?_, ?_, ?_, ?_⟩
        · simp
        · simp
        · simp
        · intro h
          rcases h with h | h <;> simp at h
      | true =>
        refine ⟨Or.inr ?_, ?_, ?_, ?_⟩
        · simp
        · simp
        · simp
        · intro h
          rcases h with h | h <;> simp at h

/-- Witness for C10: from the unset initial state, a step leaves both
totals unchanged. -/
theorem appendReading_frame_effect_witness :
    (resetStats.last_status = none ∨ resetStats.last_timestamp = none)
    ∧ ((appendReading resetStats demoReading 5).1.total_online_ms
          = resetStats.total_online_ms
        ∧ (appendReading resetStats demoReading 5).1.total_offline_ms
          = resetStats.total_offline_ms) :=
  ⟨Or.inl rfl,
    (appendReading_frame_effect resetStats demoReading 5).2.2.2 (Or.inl rfl)⟩


/-- C6: after a run of the readings-log prune, the installed stats value
is the recompute of the kept set when that set is nonempty, and the
initial unset state when the kept set is empty. -/
theorem pruneOldReadings_stats_consistency (cutoff : Int)
    (lines : List (Option Reading)) :
    (pruneOldReadings cutoff lines).2
      = if keptReadings cutoff lines = [] then resetStats
        else recomputeStats (keptReadings cutoff lines) := by
  by_cases h : keptReadings cutoff lines = [] <;> simp [pruneOldReadings, h]

theorem pruneOldReadings_fst (cutoff : Int) (lines : List (Option Reading)) :
    (pruneOldReadings cutoff lines).1 = keptReadings cutoff lines := by
  by_cases h : keptReadings cutoff lines = [] <;> simp [pruneOldReadings, h]

theorem keptReadings_eq_filter (cutoff : Int) (lines : List (Option Reading)) :
    keptReadings cutoff lines
      = (lines.filterMap id).filter (readingKeep cutoff) := by
  induction lines with
  | nil => rfl
  | cons hd tl ih =>
    cases hd with
    | none =>
      simp only [keptReadings, List.filterMap_cons] at ih ⊢
      simpa using ih
    | some obj =>
      simp only [keptReadings, List.filterMap_cons] at ih ⊢
      cases hobj : obj.timestamp with
      | none => simp [hobj, readingKeep, ih]
      | some tsMs =>
        by_cases hc : cutoff ≤ tsMs
        · simp [hobj, readingKeep, hc, ih]
        · simp [hobj, readingKeep, hc, ih]

theorem keptReadings_map_some (cutoff : Int) (l : List Reading) :
    keptReadings cutoff (l.map some) = l.filter (readingKeep cutoff) := by
  induction l with
  | nil => rfl
  | cons hd tl ih =>
    simp only [keptReadings, List.map_cons, List.filterMap_cons] at ih ⊢
    cases hobj : hd.timestamp with
    | none => simp [hobj, readingKeep, ih]
    | some tsMs =>
      by_cases hc : cutoff ≤ tsMs
      · simp [hobj, readingKeep, hc, ih]
      · simp [hobj, readingKeep, hc, ih]

theorem pruneOldStatsLog_eq_filter (cutoff : Int)
    (lines : List (Option StatsLogEntry)) :
    pruneOldStatsLog cutoff lines
      = (lines.filterMap id).filter (statsEntryKeep cutoff) := by
  induction lines with
  | nil => rfl
  | cons hd tl ih =>
    cases hd with
    | none =>
      simp only [pruneOldStatsLog, List.filterMap_cons] at ih ⊢
      simpa using ih
    | some obj =>
      simp only [pruneOldStatsLog, List.filterMap_cons] at ih ⊢
      cases hobj : obj.snapshot_at with
      | none => simp [hobj, statsEntryKeep, ih]
      | some tsMs =>
        by_cases hc : cutoff ≤ tsMs
        · simp [hobj, statsEntryKeep, hc, ih]
        · simp [hobj, statsEntryKeep, hc, ih]

theorem pruneOldStatsLog_map_some (cutoff : Int) (l : List StatsLogEntry) :
    pruneOldStatsLog cutoff (l.map some)
      = l.filter (statsEntryKeep cutoff) := by
  induction l with
  | nil => rfl
  | cons hd tl ih =>
    simp only [pruneOldStatsLog, List.map_cons, List.filterMap_cons] at ih ⊢
    cases hobj : hd.snapshot_at with
    | none => simp [hobj, statsEntryKeep, ih]
    | some tsMs =>
      by_cases hc : cutoff ≤ tsMs
      · simp [hobj, statsEntryKeep, hc, ih]
      · simp [hobj, statsEntryKeep, hc, ih]

/-- C5: for either log, pruning at cutoff C keeps exactly the parsed input
records whose retention-relevant timestamp (timestamp for readings,
snapshot_at for segment entries) is at least C, preserving record content
and order, and pruning the rewritten log again at the same cutoff leaves
it unchanged. -/
theorem prune_filter_exact_idempotent (cutoff : Int)
    (linesR : List (Option Reading)) (linesS : List (Option StatsLogEntry)) :
    (pruneOldReadings cutoff linesR).1
        = (linesR.filterMap id).filter (readingKeep cutoff)
    ∧ (pruneOldReadings cutoff
          ((pruneOldReadings cutoff linesR).1.map some)).1
        = (pruneOldReadings cutoff linesR).1
    ∧ pruneOldStatsLog cutoff linesS
        = (linesS.filterMap id).filter (statsEntryKeep cutoff)
    ∧ pruneOldStatsLog cutoff ((pruneOldStatsLog cutoff linesS).map some)
        = pruneOldStatsLog cutoff linesS := by
  refine ⟨?_, ?_, ?_, ?_⟩
  · rw [pruneOldReadings_fst, keptReadings_eq_filter]
  · rw [pruneOldReadings_fst, pruneOldReadings_fst, keptReadings_map_some,
      keptReadings_eq_filter, List.filter_filter]
    simp [Bool.and_self]
  · rw [pruneOldStatsLog_eq_filter]
  · rw [pruneOldStatsLog_map_some, pruneOldStatsLog_eq_filter,
      List.filter_filter]
    simp [Bool.and_self]

/-- C4 counterexample: fed the two chunks of the spec test stream, the
extractor parses no record at all after the second chunk, because the
combined stream never closes the second frame; in particular it does not
yield the single record with power 0 the claim asserts. -/
theorem serialChunks_counterexample :
    ¬ ((flushBuffer ((flushBuffer serialChunk1).1 ++ serialChunk2)).2.filterMap
          parseFlatObj
        = [("power", 0)]) := by decide

/-- C4 amended: fed the first chunk from an empty buffer, the extractor
yields exactly one parsed record with power 1 and retains the opening of
the second frame; fed the second chunk, it yields no further record and
retains the still unterminated second frame in the buffer. -/
theorem serialChunks_extraction :
    (flushBuffer serialChunk1).2.filterMap parseFlatObj = [("power", 1)]
    ∧ (flushBuffer serialChunk1).1 = "\x7b\"pow"
    ∧ (flushBuffer ((flushBuffer serialChunk1).1 ++ serialChunk2)).2.filterMap
          parseFlatObj
        = []
    ∧ (flushBuffer ((flushBuffer serialChunk1).1 ++ serialChunk2)).1
        = "\x7b\"power\":0" := by
  refine ⟨?_, ?_, ?_, ?_⟩ <;> decide

theorem appendReading_pairing (s : CumulativeStats) (r : Reading) (t : Int) :
    (appendReading s r t).1.last_status.isSome
      = (appendReading s r t).1.last_timestamp.isSome := by
  unfold appendReading
  cases s.last_status <;> cases s.last_timestamp <;> simp

theorem foldl_replayStep_pairing (l : List Reading) :
    ∀ s : CumulativeStats,
      s.last_status.isSome = s.last_timestamp.isSome →
      (l.foldl replayStep s).last_status.isSome
        = (l.foldl replayStep s).last_timestamp.isSome := by
  induction l with
  | nil => exact fun s h => h
  | cons hd tl ih =>
    intro s h
    refine ih _ ?_
    unfold replayStep
    cases hd.timestamp with
    | none => exact h
    | some tsMs => simp

theorem recomputeStats_pairing (l : List Reading) :
    (recomputeStats l).last_status.isSome
      = (recomputeStats l).last_timestamp.isSome :=
  foldl_replayStep_pairing (jsSortReadings l) resetStats rfl

/-- C8: in every stats state reachable through the engine operations
(startup, incremental appendReading, recomputeStats, prune, reset), the
last_status and last_timestamp fields are both set or both unset. -/
theorem reachable_stats_pairing (s : CumulativeStats)
    (h : ReachableStats s) :
    s.last_status.isSome = s.last_timestamp.isSome := by
  induction h with
  | startup => rfl
  | applyStep s r t _ _ => exact appendReading_pairing s r t
  | recomputeRun l => exact recomputeStats_pairing l
  | pruneRun cutoff lines =>
    by_cases hk : keptReadings cutoff lines = []
    · simp [pruneOldReadings, hk, resetStats]
    · simpa [pruneOldReadings, hk] using
        recomputeStats_pairing (keptReadings cutoff lines)
  | resetRun => rfl

/-- Witness for C8: the startup state is reachable and satisfies the
pairing invariant. -/
theorem reachable_stats_pairing_witness :
    ReachableStats resetStats
    ∧ resetStats.last_status.isSome = resetStats.last_timestamp.isSome :=
  ⟨ReachableStats.startup,
    reachable_stats_pairing resetStats ReachableStats.startup⟩

theorem replayStep_eq_applyStepFold (s : CumulativeStats) (r : Reading)
    (h : r.timestamp.isSome) : replayStep s r = applyStepFold s r := by
  obtain ⟨t, ht⟩ := Option.isSome_iff_exists.mp h
  unfold replayStep applyStepFold appendReading
  rw [ht]
  cases s.last_status <;> cases s.last_timestamp <;> simp <;> rfl

theorem foldl_replay_eq_applyFold (l : List Reading) :
    ∀ s : CumulativeStats, (∀ r ∈ l, r.timestamp.isSome) →
      l.foldl replayStep s = l.foldl applyStepFold s := by
  induction l with
  | nil => intro s _; rfl
  | cons hd tl ih =>
    intro s hall
    simp only [List.foldl_cons]
    rw [replayStep_eq_applyStepFold s hd (hall hd (by simp))]
    exact ih _ (fun r hr => hall r (List.mem_cons_of_mem _ hr))

/-- C1: on a chronologically sorted sequence of readings whose timestamps
all parse, recomputeStats equals the fold of the incremental appendReading
update step from the initial unset state; the equality is of whole stats
records, hence of total_online_ms, total_offline_ms, last_status and
last_timestamp. -/
theorem recompute_replay_equivalence (l : List Reading)
    (hall : ∀ r ∈ l, r.timestamp.isSome)
    (hsorted : l.Pairwise (fun a b => jsLe a b = true)) :
    recomputeStats l = l.foldl applyStepFold resetStats := by
  unfold recomputeStats jsSortReadings
  rw [List.mergeSort_of_sorted hsorted]
  exact foldl_replay_eq_applyFold l resetStats hall

/-- Witness for C1: the demo sequence offline at 0, online at 5000,
offline at 15000 gives the same stats both ways. -/
theorem recompute_replay_equivalence_witness :
    recomputeStats demoReadings
      = demoReadings.foldl applyStepFold resetStats :=
  recompute_replay_equivalence demoReadings (by decide) (by decide)

theorem jsLe_eq_jsLeTotal_of_parseable {a b : Reading}
    (ha : a.timestamp.isSome) (hb : b.timestamp.isSome) :
    jsLe a b = jsLeTotal a b := by
  obtain ⟨ta, hta⟩ := Option.isSome_iff_exists.mp ha
  obtain ⟨tb, htb⟩ := Option.isSome_iff_exists.mp hb
  simp [jsLe, jsLeTotal, hta, htb]

theorem mergeSort_jsLe_eq_total (m : List Reading)
    (hm : ∀ r ∈ m, r.timestamp.isSome) :
    m.mergeSort jsLe = m.mergeSort jsLeTotal := by
  have h := List.map_mergeSort (f := id) (r := jsLe) (s := jsLeTotal)
    (l := m) ?_
  · simpa using h
  · intro a ha b hb
    simp only [id]
    exact jsLe_eq_jsLeTotal_of_parseable (hm a ha) (hm b hb)

theorem jsLeTotal_trans :
    ∀ (a b c : Reading), jsLeTotal a b → jsLeTotal b c → jsLeTotal a c := by
  intro a b c hab hbc
  simp only [jsLeTotal, decide_eq_true_eq] at hab hbc ⊢
  omega

theorem jsLeTotal_total :
    ∀ (a b : Reading), jsLeTotal a b || jsLeTotal b a := by
  intro a b
  simp only [jsLeTotal]
  by_cases h : a.timestamp.getD 0 ≤ b.timestamp.getD 0
  · simp [h]
  · simp [h]
    omega

theorem jsSortReadings_idem (l : List Reading)
    (hl : ∀ r ∈ l, r.timestamp.isSome) :
    jsSortReadings (jsSortReadings l) = jsSortReadings l := by
  have hmem : ∀ r ∈ jsSortReadings l, r.timestamp.isSome := fun r hr =>
    hl r ((List.mergeSort_perm l jsLe).mem_iff.mp hr)
  have h1 : jsSortReadings l = l.mergeSort jsLeTotal :=
    mergeSort_jsLe_eq_total l hl
  have hsorted :
      (l.mergeSort jsLeTotal).Pairwise (fun a b => jsLeTotal a b = true) :=
    List.sorted_mergeSort jsLeTotal_trans jsLeTotal_total l
  calc jsSortReadings (jsSortReadings l)
      = (jsSortReadings l).mergeSort jsLeTotal :=
        mergeSort_jsLe_eq_total _ hmem
    _ = (l.mergeSort jsLeTotal).mergeSort jsLeTotal := by rw [h1]
    _ = l.mergeSort jsLeTotal := List.mergeSort_of_sorted hsorted
    _ = jsSortReadings l := h1.symm

/-- C3: for a reading sequence that is a permutation of a set of readings
with parseable timestamps, recomputeStats on the sequence equals
recomputeStats on the sequence sorted ascending by timestamp with the
sort used by the code. -/
theorem recompute_sort_independence (base l : List Reading)
    (hperm : l.Perm base)
    (hall : ∀ r ∈ base, r.timestamp.isSome) :
    recomputeStats l = recomputeStats (jsSortReadings l) := by
  have hl : ∀ r ∈ l, r.timestamp.isSome := fun r hr =>
    hall r (hperm.subset hr)
  unfold recomputeStats
  rw [jsSortReadings_idem l hl]

/-- Witness for C3: an unsorted permutation of the demo reading set. -/
theorem recompute_sort_independence_witness :
    recomputeStats demoPerm = recomputeStats (jsSortReadings demoPerm) :=
  recompute_sort_independence demoReadings demoPerm (by decide) (by decide)
